import Mathlib

/-!
Shallow embedding of the `@betafcc/red` reducer-builder library
(`src/lib/index.ts`, re-exported through `src/lib/index.d.ts` and shown in
`src/README.md`).

JavaScript object literals are modelled as association lists
(`List (String × α)`).  The object spread `{...a, ...b}` is modelled as list
append `a ++ b` together with a *rightmost-binding-wins* lookup `alookup`:
looking a key up in `a ++ b` finds `b`'s binding when `b` binds the key and
`a`'s binding otherwise, exactly the field semantics of the spread.  Claims
about object "equality" are stated per field, through `alookup`.
-/

set_option autoImplicit false

namespace Red4

/-- Runtime values: the JSON-like data that states, payload elements and
nested sub-states range over. -/
inductive Value where
  | vnat  : Nat → Value
  | vint  : Int → Value
  | vstr  : String → Value
  | vbool : Bool → Value
  | vlist : List Value → Value
  | vobj  : List (String × Value) → Value

/-- A JavaScript object: a finite mapping from field names to values,
as an association list where the rightmost binding of a key wins. -/
abbrev Obj := List (String × Value)

/-- First-some choice on options; `alookup (a ++ b) k = oor (alookup b k) (alookup a k)`. -/
def oor {α : Type} : Option α → Option α → Option α
  | some v, _ => some v
  | none, y => y

/-- Field lookup with rightmost-binding precedence: the model of reading a
property of an object built by spreads. -/
def alookup {α : Type} : List (String × α) → String → Option α
  | [], _ => none
  | p :: rest, k => oor (alookup rest k) (if p.1 = k then some p.2 else none)

/-- The object spread `{...a, ...b}`: `b`'s fields overwrite `a`'s, fields
absent from `b` are preserved from `a` (shallow, field-by-field). -/
def Obj.merge (a b : Obj) : Obj := a ++ b

/-- A transition handler `(state, ...payload) -> partial state`
(`Handlers<S, A>` in the source). -/
def Handler := Obj → List Value → Obj

/-- An action message `{ type, payload }` (`ActionType<K, P>` in the source). -/
structure Action where
  type : String
  payload : List Value

/-- The Builder (`class Red<S, A>`): one `initial` state and one mapping of
handlers keyed by action type. -/
structure Red where
  initial : Obj
  handlers : List (String × Handler)

/-- Derived action creators, computed from the handler mapping's keys in the
constructor: `{type -> (...payload) => ({type, payload})}`. -/
def Red.actions (r : Red) : List (String × (List Value → Action)) :=
  r.handlers.map (fun p => (p.1, fun payload => Action.mk p.1 payload))

/-- `reducer = (state, action) => ({...state, ...(handlers[action.type] ?
handlers[action.type](state, ...action.payload) : {})})`. -/
def Red.reducer (r : Red) (state : Obj) (a : Action) : Obj :=
  Obj.merge state
    (match alookup r.handlers a.type with
     | some f => f state a.payload
     | none => [])

/-- `handle = handlers => new Red(this.initial, {...this.handlers, ...handlers})`. -/
def Red.handle (r : Red) (hs : List (String × Handler)) : Red :=
  Red.mk r.initial (r.handlers ++ hs)

/-- `withState = initial => new Red({...this.initial, ...initial}, this.handlers)`. -/
def Red.withState (r : Red) (o : Obj) : Red :=
  Red.mk (Obj.merge r.initial o) r.handlers

/-- `merge = other => this.withState(other.initial).handle(other.handlers)`. -/
def Red.merge (r other : Red) : Red :=
  (r.withState other.initial).handle other.handlers

/-- The root Builder `export const red = new Red<{}, never>({}, {})`. -/
def red : Red := Red.mk [] []

/-- Reading the namespaced sub-state `s[key]` as an object (the sub-states
installed by `combine` are always objects). -/
def subState (s : Obj) (key : String) : Obj :=
  match alookup s key with
  | some (Value.vobj o) => o
  | _ => []

/-- The namespaced rewrite of one handler inside `combine`:
`(s, ...p) => ({ [key]: { ...s[key], ...f(s[key], ...p) } })`. -/
def nsHandler (key : String) (f : Handler) : Handler :=
  fun s p => [(key, Value.vobj (Obj.merge (subState s key) (f (subState s key) p)))]

/-- The namespaced handler object built by `combine` for one `(key, r)` entry:
`Object.entries(r.handlers).reduce((h, [type, f]) => Object.assign(h, {[type]: ...}), {})`. -/
def nsHandlers (key : String) (hs : List (String × Handler)) : List (String × Handler) :=
  hs.map (fun q => (q.1, nsHandler key q.2))

/-- The free function `combine`: a fold over the entries of the named-Builder
mapping, starting from `new Red({}, {})`, doing
`acc.withState({[key]: r.initial}).handle(namespacedHandlers)` per entry. -/
def combine (reds : List (String × Red)) : Red :=
  reds.foldl
    (fun acc q => (acc.withState [(q.1, Value.vobj q.2.initial)]).handle (nsHandlers q.1 q.2.handlers))
    (Red.mk [] [])

/-- The method `combine = reds => this.merge(combine(reds))`. -/
def Red.combine (r : Red) (reds : List (String × Red)) : Red :=
  Red.merge r (Red4.combine reds)

/-- `makeDispatchers = dispatch => Object.keys(this.actions).reduce((acc, type) =>
({...acc, [type]: (...payload) => dispatch({type, payload})}), {})`. -/
def Red.makeDispatchers {D : Type} (r : Red) (dispatch : Action → D) :
    List (String × (List Value → D)) :=
  r.actions.map (fun q => (q.1, fun payload => dispatch (Action.mk q.1 payload)))

/-! ### Basic lookup lemmas -/

theorem oor_none_right {α : Type} (x : Option α) : oor x none = x := by
  cases x <;> rfl

theorem oor_assoc {α : Type} (x y z : Option α) :
    oor (oor x y) z = oor x (oor y z) := by
  cases x <;> cases y <;> rfl

theorem alookup_append {α : Type} (a b : List (String × α)) (k : String) :
    alookup (a ++ b) k = oor (alookup b k) (alookup a k) := by
  induction a with
  | nil => simp [alookup, oor_none_right]
  | cons p rest ih =>
    show alookup (p :: (rest ++ b)) k = _
    rw [alookup, ih, oor_assoc]
    rfl

/-- Lookup in a list whose values were rewritten entrywise. -/
theorem alookup_map_val {α β : Type} (w : α → β) (l : List (String × α)) (k : String) :
    alookup (l.map (fun q => (q.1, w q.2))) k = (alookup l k).map w := by
  induction l with
  | nil => rfl
  | cons p rest ih =>
    simp only [List.map_cons, alookup, ih]
    cases alookup rest k with
    | some v => rfl
    | none =>
      by_cases h : p.1 = k <;> simp [h, oor]

/-- Lookup in a list whose values depend only on the key. -/
theorem alookup_map_key {α β : Type} (g : String → β) (l : List (String × α)) (k : String) :
    alookup (l.map (fun q => (q.1, g q.1))) k = (alookup l k).map (fun _ => g k) := by
  induction l with
  | nil => rfl
  | cons p rest ih =>
    simp only [List.map_cons, alookup, ih]
    cases alookup rest k with
    | some v => rfl
    | none =>
      by_cases h : p.1 = k <;> simp [h, oor]

theorem alookup_eq_none_of_not_mem {α : Type} (l : List (String × α)) (k : String)
    (h : ∀ q ∈ l, q.1 ≠ k) : alookup l k = none := by
  induction l with
  | nil => rfl
  | cons p rest ih =>
    rw [alookup, ih (fun q hq => h q (List.mem_cons_of_mem p hq))]
    simp [h p (List.mem_cons_self p rest), oor]

/-! ### Structure of `combine` -/

/-- The fold in `combine` just concatenates: the namespaced initials in entry
order, and the namespaced handler lists in entry order. -/
theorem combine_eq (reds : List (String × Red)) :
    combine reds =
      Red.mk (reds.map (fun q => (q.1, Value.vobj q.2.initial)))
             (reds.flatMap (fun q => nsHandlers q.1 q.2.handlers)) := by
  have h : ∀ (l : List (String × Red)) (acc : Red),
      l.foldl (fun acc q =>
          (acc.withState [(q.1, Value.vobj q.2.initial)]).handle (nsHandlers q.1 q.2.handlers)) acc =
        Red.mk (acc.initial ++ l.map (fun q => (q.1, Value.vobj q.2.initial)))
               (acc.handlers ++ l.flatMap (fun q => nsHandlers q.1 q.2.handlers)) := by
    intro l
    induction l with
    | nil => intro acc; simp
    | cons q rest ih =>
      intro acc
      rw [List.foldl_cons, ih]
      simp [Red.withState, Red.handle, Obj.merge]
  simpa [combine] using h reds (Red.mk [] [])

/-- Namespacing rewrites values only: looking a kind up among the namespaced
handlers finds the namespaced rewrite of the original handler. -/
theorem alookup_nsHandlers (key : String) (hs : List (String × Handler)) (kind : String) :
    alookup (nsHandlers key hs) kind = (alookup hs kind).map (nsHandler key) := by
  simpa [nsHandlers] using alookup_map_val (nsHandler key) hs kind

theorem alookup_flatMap_eq_none {α β : Type} (F : β → List (String × α)) (l : List β) (k : String)
    (h : ∀ q ∈ l, alookup (F q) k = none) : alookup (l.flatMap F) k = none := by
  induction l with
  | nil => rfl
  | cons q rest ih =>
    rw [List.flatMap_cons, alookup_append,
        ih (fun q' hq' => h q' (List.mem_cons_of_mem q hq')),
        h q (List.mem_cons_self q rest)]
    rfl

/-! ### Sample builders (concrete instances used by the witnesses) -/

/-- Read the `count` field of a state as a number (0 if absent). -/
def getCount (s : Obj) : Nat :=
  match alookup s "count" with
  | some (Value.vnat n) => n
  | _ => 0

/-- The spec's `increment` example handler: `s -> {count: s.count + 1}`. -/
def incHandler : Handler :=
  fun s _ => [("count", Value.vnat (getCount s + 1))]

/-- `red.withState({count: 0}).handle({increment: ...})`. -/
def counterApp : Red :=
  (red.withState [("count", Value.vnat 0)]).handle [("increment", incHandler)]

/-- The spec's `setInput` example handler: `(s, v) -> {input: v}`. -/
def setInputHandler : Handler :=
  fun _ p =>
    match p with
    | v :: _ => [("input", v)]
    | [] => [("input", Value.vstr "")]

/-- `red.withState({input: ""}).handle({setInput: ...})`. -/
def inputApp : Red :=
  (red.withState [("input", Value.vstr "")]).handle [("setInput", setInputHandler)]

/-! ### The claims -/

/-- C1: for every Builder, state and action whose kind is a key of the
handler mapping, `reducer(state, action)` is the shallow merge of `state`
with `handlers[action.type](state, ...action.payload)`: per field, a field
present in the handler's partial result replaces the state's field, and a
field absent from the partial result is preserved from the state. -/
theorem C1_reducer_shallow_merge (r : Red) (s : Obj) (a : Action) (f : Handler) (k : String)
    (h : alookup r.handlers a.type = some f) :
    r.reducer s a = Obj.merge s (f s a.payload)
    ∧ alookup (r.reducer s a) k = oor (alookup (f s a.payload) k) (alookup s k) := by
  constructor
  · simp [Red.reducer, h]
  · simp [Red.reducer, h, Obj.merge, alookup_append]

theorem C1_reducer_shallow_merge_witness :
    alookup counterApp.handlers "increment" = some incHandler
    ∧ (counterApp.reducer counterApp.initial (Action.mk "increment" []) =
         Obj.merge counterApp.initial (incHandler counterApp.initial [])
       ∧ alookup (counterApp.reducer counterApp.initial (Action.mk "increment" [])) "count" =
           oor (alookup (incHandler counterApp.initial []) "count")
               (alookup counterApp.initial "count")) :=
  ⟨rfl, C1_reducer_shallow_merge counterApp counterApp.initial (Action.mk "increment" [])
     incHandler "count" rfl⟩

/-- C2: for every Builder, state and action whose kind is not a key of the
handler mapping, the reducer returns the state unchanged (so in particular it
maps `initial` to `initial`), and no error is raised (the reducer is a total
function). -/
theorem C2_unknown_kind_noop (r : Red) (s : Obj) (a : Action)
    (h : alookup r.handlers a.type = none) :
    r.reducer s a = s ∧ r.reducer r.initial a = r.initial := by
  constructor <;> simp [Red.reducer, h, Obj.merge]

theorem C2_unknown_kind_noop_witness :
    alookup counterApp.handlers "__unknown__" = none
    ∧ (counterApp.reducer counterApp.initial (Action.mk "__unknown__" []) = counterApp.initial
       ∧ counterApp.reducer counterApp.initial (Action.mk "__unknown__" []) = counterApp.initial) :=
  ⟨rfl, C2_unknown_kind_noop counterApp counterApp.initial (Action.mk "__unknown__" []) rfl⟩

/-- C4: `a.merge(b)` is exactly `a.withState(b.initial).handle(b.handlers)`
(the spec's `extendState`/`extend`): its initial is the shallow merge of the
two initials, and its handler mapping is the key union of the two handler
mappings with `b`'s handler winning on a shared kind. -/
theorem C4_merge_is_withState_handle (a b : Red) (kind : String) :
    a.merge b = (a.withState b.initial).handle b.handlers
    ∧ (a.merge b).initial = Obj.merge a.initial b.initial
    ∧ alookup (a.merge b).handlers kind = oor (alookup b.handlers kind) (alookup a.handlers kind) := by
  refine ⟨rfl, rfl, ?_⟩
  simp [Red.merge, Red.withState, Red.handle, alookup_append]

/-- C5: registering `x: h1` and then `x: h2` yields a Builder whose reducer
behaves exactly like the one that only registered `x: h2` (so `h1` is never
invoked), and the extension keeps the receiver's `initial` unchanged. -/
theorem C5_extend_override (b : Red) (x : String) (h1 h2 : Handler) (s : Obj) (a : Action) :
    ((b.handle [(x, h1)]).handle [(x, h2)]).reducer s a = (b.handle [(x, h2)]).reducer s a
    ∧ ((b.handle [(x, h1)]).handle [(x, h2)]).initial = b.initial := by
  refine ⟨?_, rfl⟩
  have hl : alookup ((b.handle [(x, h1)]).handle [(x, h2)]).handlers a.type
      = alookup (b.handle [(x, h2)]).handlers a.type := by
    simp only [Red.handle, alookup_append, alookup]
    by_cases hx : x = a.type <;>
      cases hrest : alookup b.handlers a.type <;> simp [hx, oor]
  simp [Red.reducer, hl]

/-- C6: `merge` is associative (the two associations are the same Builder
value, hence have reducers agreeing on every state and action), and the
empty Builder `red` is a two-sided identity for `merge`. -/
theorem C6_merge_assoc_identity (a b c r : Red) (s : Obj) (act : Action) :
    (a.merge b).merge c = a.merge (b.merge c)
    ∧ ((a.merge b).merge c).reducer s act = (a.merge (b.merge c)).reducer s act
    ∧ r.merge red = r
    ∧ red.merge r = r := by
  have h1 : (a.merge b).merge c = a.merge (b.merge c) := by
    simp [Red.merge, Red.withState, Red.handle, Obj.merge]
  refine ⟨h1, by rw [h1], ?_, ?_⟩
  · obtain ⟨ri, rh⟩ := r
    simp [Red.merge, Red.withState, Red.handle, Obj.merge, red]
  · obtain ⟨ri, rh⟩ := r
    simp [Red.merge, Red.withState, Red.handle, Obj.merge, red]

/-- Looking a kind up among the derived action creators. -/
theorem alookup_actions (r : Red) (kind : String) :
    alookup r.actions kind
      = (alookup r.handlers kind).map (fun _ => (fun p => Action.mk kind p)) :=
  alookup_map_key (fun k => fun p => Action.mk k p) r.handlers kind

/-- C7: for every registered kind, the derived action creator exists, it is
exactly `(...args) => ({type: kind, payload: args})`, dispatching the created
action through the reducer is the same as dispatching the literal action, and
the action mapping has exactly the handler mapping's keys. -/
theorem C7_action_creator_round_trip (r : Red) (kind : String) (f : Handler)
    (args : List Value) (s : Obj) (h : alookup r.handlers kind = some f) :
    r.actions.map Prod.fst = r.handlers.map Prod.fst
    ∧ alookup r.actions kind = some (fun p => Action.mk kind p)
    ∧ ∃ mk, alookup r.actions kind = some mk
        ∧ mk args = Action.mk kind args
        ∧ r.reducer s (mk args) = r.reducer s (Action.mk kind args) := by
  have hact : alookup r.actions kind = some (fun p => Action.mk kind p) := by
    rw [alookup_actions, h]; rfl
  exact ⟨by simp [Red.actions], hact, ⟨fun p => Action.mk kind p, hact, rfl, rfl⟩⟩

theorem C7_action_creator_round_trip_witness :
    alookup counterApp.handlers "increment" = some incHandler
    ∧ (counterApp.actions.map Prod.fst = counterApp.handlers.map Prod.fst
       ∧ alookup counterApp.actions "increment" = some (fun p => Action.mk "increment" p)
       ∧ ∃ mk, alookup counterApp.actions "increment" = some mk
           ∧ mk [] = Action.mk "increment" []
           ∧ counterApp.reducer counterApp.initial (mk [])
               = counterApp.reducer counterApp.initial (Action.mk "increment" [])) :=
  ⟨rfl, C7_action_creator_round_trip counterApp "increment" incHandler [] counterApp.initial rfl⟩

/-- C8: every composition operation is a pure construction: it returns a new
Builder value built from snapshots of the receiver's fields (by the stated
merge formulas), and the receiver keeps its own `initial` and `handlers`
value-unchanged after the call. -/
theorem C8_composition_no_mutation (r other : Red) (hs : List (String × Handler))
    (o : Obj) (reds : List (String × Red)) :
    r.handle hs = Red.mk r.initial (r.handlers ++ hs)
    ∧ r.withState o = Red.mk (Obj.merge r.initial o) r.handlers
    ∧ r.merge other = Red.mk (Obj.merge r.initial other.initial) (r.handlers ++ other.handlers)
    ∧ r.combine reds = Red.merge r (combine reds)
    ∧ r = Red.mk r.initial r.handlers :=
  ⟨rfl, rfl, rfl, rfl, rfl⟩

/-- Looking a kind up among the dispatchers produced by `makeDispatchers`. -/
theorem alookup_makeDispatchers {D : Type} (r : Red) (dispatch : Action → D) (kind : String) :
    alookup (r.makeDispatchers dispatch) kind
      = (alookup r.actions kind).map (fun _ => (fun p => dispatch (Action.mk kind p))) :=
  alookup_map_key (fun k => fun p => dispatch (Action.mk k p)) r.actions kind

/-- C9: `makeDispatchers(dispatch)` has exactly one entry per registered
kind (its key list is the handler mapping's key list, without duplicates when
the handler keys have none), and the entry for a registered kind is the
function `(...args) => dispatch({type: kind, payload: args})`. -/
theorem C9_makeDispatchers (D : Type) (r : Red) (dispatch : Action → D) (kind : String)
    (f : Handler) (args : List Value)
    (hnd : (r.handlers.map Prod.fst).Nodup) (h : alookup r.handlers kind = some f) :
    (r.makeDispatchers dispatch).map Prod.fst = r.handlers.map Prod.fst
    ∧ ((r.makeDispatchers dispatch).map Prod.fst).Nodup
    ∧ ∃ d, alookup (r.makeDispatchers dispatch) kind = some d
        ∧ d args = dispatch (Action.mk kind args) := by
  have hkeys : (r.makeDispatchers dispatch).map Prod.fst = r.handlers.map Prod.fst := by
    simp [Red.makeDispatchers, Red.actions]
  refine ⟨hkeys, by rw [hkeys]; exact hnd, ⟨fun p => dispatch (Action.mk kind p), ?_, rfl⟩⟩
  rw [alookup_makeDispatchers, alookup_actions, h]
  rfl

theorem C9_makeDispatchers_witness :
    (counterApp.handlers.map Prod.fst).Nodup
    ∧ alookup counterApp.handlers "increment" = some incHandler
    ∧ ((counterApp.makeDispatchers id).map Prod.fst = counterApp.handlers.map Prod.fst
       ∧ ((counterApp.makeDispatchers id).map Prod.fst).Nodup
       ∧ ∃ d, alookup (counterApp.makeDispatchers id) "increment" = some d
           ∧ d [Value.vnat 7] = id (Action.mk "increment" [Value.vnat 7])) :=
  ⟨by simp [counterApp, Red.handle, Red.withState, red], rfl,
   C9_makeDispatchers Action counterApp id "increment" incHandler [Value.vnat 7]
     (by simp [counterApp, Red.handle, Red.withState, red]) rfl⟩

/-- C10: the Builder method `combine` is exactly `this.merge(combine(reds))`:
the receiver's fields and handlers are preserved wherever the namespaced
combination binds nothing, and on any conflicting state field or action kind
the namespaced combination (the right-hand operand of the merge) wins. -/
theorem C10_method_combine (r : Red) (reds : List (String × Red)) (k kind : String) :
    r.combine reds = Red.merge r (combine reds)
    ∧ alookup (r.combine reds).initial k
        = oor (alookup (combine reds).initial k) (alookup r.initial k)
    ∧ alookup (r.combine reds).handlers kind
        = oor (alookup (combine reds).handlers kind) (alookup r.handlers kind) := by
  refine ⟨rfl, ?_, ?_⟩ <;>
    simp [Red.combine, Red.merge, Red.withState, Red.handle, Obj.merge, alookup_append]

/-- C3: `combine` nests each input Builder's initial under its key; the
combined handler for a `(key, kind)` pair is the namespaced rewrite
`(s, ...p) => ({[key]: {...s[key], ...f(s[key], ...p)}})` — with the
last-processed namespace winning when the same kind occurs again later — so
dispatching that kind rewrites only the `key` sub-object and leaves every
other field of the state value-unchanged. -/
theorem C3_combine_namespacing (pre post : List (String × Red)) (key : String) (b : Red)
    (kind : String) (f : Handler) (s : Obj) (args : List Value) (k' : String)
    (h1 : alookup b.handlers kind = some f)
    (h2 : ∀ q ∈ post, alookup q.2.handlers kind = none)
    (h3 : ∀ q ∈ post, q.1 ≠ key)
    (h4 : k' ≠ key) :
    (combine (pre ++ (key, b) :: post)).initial
        = (pre ++ (key, b) :: post).map (fun q => (q.1, Value.vobj q.2.initial))
    ∧ alookup (combine (pre ++ (key, b) :: post)).initial key = some (Value.vobj b.initial)
    ∧ alookup (combine (pre ++ (key, b) :: post)).handlers kind = some (nsHandler key f)
    ∧ alookup ((combine (pre ++ (key, b) :: post)).reducer s (Action.mk kind args)) k'
        = alookup s k'
    ∧ alookup ((combine (pre ++ (key, b) :: post)).reducer s (Action.mk kind args)) key
        = some (Value.vobj (Obj.merge (subState s key) (f (subState s key) args))) := by
  have hcomb := combine_eq (pre ++ (key, b) :: post)
  have hpost0 : alookup (post.map (fun q => (q.1, Value.vobj q.2.initial))) key = none := by
    refine alookup_eq_none_of_not_mem _ key ?_
    intro q hq
    obtain ⟨q0, hq0, rfl⟩ := List.mem_map.mp hq
    exact h3 q0 hq0
  have hinit : alookup (combine (pre ++ (key, b) :: post)).initial key
      = some (Value.vobj b.initial) := by
    rw [hcomb]
    simp [List.map_append, alookup_append, alookup, hpost0, oor]
  have hpostF : alookup (post.flatMap (fun q => nsHandlers q.1 q.2.handlers)) kind = none := by
    refine alookup_flatMap_eq_none _ post kind ?_
    intro q hq
    rw [alookup_nsHandlers, h2 q hq]
    rfl
  have hns : alookup (nsHandlers key b.handlers) kind = some (nsHandler key f) := by
    rw [alookup_nsHandlers, h1]
    rfl
  have hhand : alookup (combine (pre ++ (key, b) :: post)).handlers kind
      = some (nsHandler key f) := by
    rw [hcomb]
    simp only [List.flatMap_append, List.flatMap_cons, alookup_append, hpostF, hns]
    rfl
  have hred : (combine (pre ++ (key, b) :: post)).reducer s (Action.mk kind args)
      = s ++ [(key, Value.vobj (Obj.merge (subState s key) (f (subState s key) args)))] := by
    simp [Red.reducer, hhand, Obj.merge, nsHandler]
  refine ⟨by rw [hcomb], hinit, hhand, ?_, ?_⟩
  · rw [hred, alookup_append]
    simp [alookup, oor, Ne.symm h4]
  · rw [hred, alookup_append]
    simp [alookup, oor]

/-- The concrete named-Builder mapping of the spec's combine example:
`{ui: inputApp, counter: counterApp}`. -/
def combineSample : List (String × Red) := [("ui", inputApp), ("counter", counterApp)]

/-- The nested initial state of `combine combineSample`. -/
def combineSampleState : Obj :=
  [("ui", Value.vobj [("input", Value.vstr "")]),
   ("counter", Value.vobj [("count", Value.vnat 0)])]

theorem C3_combine_namespacing_witness :
    alookup counterApp.handlers "increment" = some incHandler
    ∧ (∀ q ∈ ([] : List (String × Red)), alookup q.2.handlers "increment" = none)
    ∧ (∀ q ∈ ([] : List (String × Red)), q.1 ≠ "counter")
    ∧ "ui" ≠ "counter"
    ∧ ((combine combineSample).initial
          = combineSample.map (fun q => (q.1, Value.vobj q.2.initial))
       ∧ alookup (combine combineSample).initial "counter" = some (Value.vobj counterApp.initial)
       ∧ alookup (combine combineSample).handlers "increment"
          = some (nsHandler "counter" incHandler)
       ∧ alookup ((combine combineSample).reducer combineSampleState
            (Action.mk "increment" [])) "ui" = alookup combineSampleState "ui"
       ∧ alookup ((combine combineSample).reducer combineSampleState
            (Action.mk "increment" [])) "counter"
          = some (Value.vobj (Obj.merge (subState combineSampleState "counter")
              (incHandler (subState combineSampleState "counter") [])))) :=
  ⟨rfl, by simp, by simp, by decide,
   C3_combine_namespacing [("ui", inputApp)] [] "counter" counterApp "increment" incHandler
     combineSampleState [] "ui" rfl (by simp) (by simp) (by decide)⟩

end Red4
